import Mathlib

/-!
Verification of the adaptive diagnostic navigation engine
(`backend/app/services/diagnostic_router.py`).

The engine drives a learner through a validated decision graph: each
`next_node` call records the learner response, applies the matching edge's
misconception-confidence delta, evaluates the termination policy, and either
advances to the next node or finalizes the session with a diagnostic result.

This file is a shallow embedding of that code:
* Python dicts (`responses`, `suspected_misconceptions`) are insertion-ordered
  association lists, mutated by `assocSet` (update in place, append if new) —
  exactly Python dict semantics.
* Python floats are modelled as exact rationals (`ℚ`); every constant in the
  source (0.85, 0.9, 0.7, 0.1, 0.2) is representable exactly.
* `datetime.utcnow()` readings are modelled as an explicit `now : Nat`
  parameter; `uuid.uuid4()` inside `_generate_session_id` is modelled as an
  explicit `session_id` input, since both are external nondeterminism.
* Database persistence (`db.add` / `db.commit`) is external and not modelled;
  the session row mutated by the router is the `DiagnosticSession` value
  threaded through the functions.
-/

/-- Severity levels of `MisconceptionSeverity` in
`schemas/diagnostic_schemas.py` (`low < medium < high < critical`). -/
inductive Severity where
  | low
  | medium
  | high
  | critical
deriving DecidableEq, Repr

/-- Session lifecycle status strings used by the router
("in_progress", "completed", "abandoned"). -/
inductive SessionStatus where
  | inProgress
  | completed
  | abandoned
deriving DecidableEq, Repr

/-- One routing edge of the decision tree JSON:
`{from_node_id, option_selected, to_node_id|null, misconception_tag|null,
confidence_delta}`. -/
structure Edge where
  from_node_id : String
  option_selected : String
  to_node_id : Option String
  misconception_tag : Option String
  confidence_delta : ℚ
deriving DecidableEq, Repr

/-- The decision-tree JSON stored on a `DiagnosticForm`: a node arena (only
the node ids matter to the navigation logic verified here; node content is
presentation data) plus the edge list. -/
structure DecisionTree where
  nodes : List String
  edges : List Edge
deriving DecidableEq, Repr

/-- The `DiagnosticForm` fields read by the router: `root_item_id`,
`decision_tree`, `max_depth`. -/
structure DiagnosticForm where
  form_id : String
  root_item_id : String
  decision_tree : DecisionTree
  max_depth : Nat
deriving DecidableEq, Repr

/-- A catalog row of the `Misconception` table as read by
`_determine_severity` / `_generate_teacher_summary`: the lookup key used in
`Misconception.id.in_(confirmed)`, plus `name`, `description`, `severity`. -/
structure CatalogEntry where
  id : String
  name : String
  description : String
  severity : Severity
deriving DecidableEq, Repr

/-- The `DiagnosticSession` row fields touched by the router. -/
structure DiagnosticSession where
  session_id : String
  learner_id : String
  form_id : String
  current_node_id : String
  visited_nodes : List String
  responses : List (String × String)
  suspected_misconceptions : List (String × ℚ)
  confirmed_misconceptions : List String
  status : SessionStatus
  started_at : Nat
  last_activity_at : Option Nat
  completed_at : Option Nat
  total_time_seconds : Option ℤ
deriving DecidableEq, Repr

/-- The `DiagnosticResultSchema` produced by `_generate_result`. -/
structure DiagnosticResult where
  session_id : String
  learner_id : String
  form_id : String
  primary_misconception : Option String
  all_misconceptions : List (String × ℚ)
  severity : Severity
  response_path : List String
  key_evidence : List String
  recommended_interventions : List String
  teacher_summary : String
  learner_feedback : String
  completed_at : Nat
  total_time_seconds : ℤ
  confidence_score : ℚ
deriving DecidableEq, Repr

/-- The `NextNodeResponse` fields relevant to navigation: `terminal`, the id
of the next node to show (content lookup is presentation data), and the final
result when terminal. The `progress` dict is derived display data and is not
modelled. -/
structure AdvanceOutcome where
  terminal : Bool
  next_node : Option String
  result : Option DiagnosticResult
deriving DecidableEq, Repr

/-- Python `dict.get`: first value bound to key `k`, if any. -/
def assocGet {β : Type} (l : List (String × β)) (k : String) : Option β :=
  match l with
  | [] => none
  | (k₀, v₀) :: rest => if k₀ = k then some v₀ else assocGet rest k

/-- Python `d[k] = v`: update the value in place if the key exists (keeping
its insertion position), otherwise append the new binding at the end. -/
def assocSet {β : Type} (l : List (String × β)) (k : String) (v : β) :
    List (String × β) :=
  match l with
  | [] => [(k, v)]
  | (k₀, v₀) :: rest =>
      if k₀ = k then (k, v) :: rest else (k₀, v₀) :: assocSet rest k v

/-- Python `max` over a nonempty list of numbers (callers guard emptiness;
the `[]` case is dead code, where Python `max` would raise). -/
def listMax : List ℚ → ℚ
  | [] => 0
  | x :: xs => xs.foldl max x

/-- Python `max(items, key=lambda x: x[1])[0]`, returning `None` on an empty
dict: the first key attaining the maximal value (Python `max` keeps the
earlier element on ties). -/
def argmaxFirst (l : List (String × ℚ)) : Option String :=
  match l with
  | [] => none
  | p :: ps => some (ps.foldl (fun best q => if best.2 < q.2 then q else best) p).1

/-- Edge lookup of `_find_next_node` / `_update_misconception_confidence`:
first edge with `from_node_id == current` and `option_selected == response`. -/
def findMatchingEdge (edges : List Edge) (current response : String) : Option Edge :=
  edges.find? (fun e => e.from_node_id == current && e.option_selected == response)

/-- `DiagnosticRouter._find_next_node`: the matching edge's `to_node_id`
(possibly null), or `None` when no edge matches ("shouldn't happen with valid
responses" — the router then treats the response as terminal). -/
def findNextNode (tree : DecisionTree) (current response : String) : Option String :=
  match findMatchingEdge tree.edges current response with
  | some edge => edge.to_node_id
  | none => none

/-- Core of `_update_misconception_confidence` (source lines 473-485): given
the edge's `misconception_tag` and `confidence_delta`, produce the updated
`(suspected_misconceptions, confirmed_misconceptions)` pair. The Python guard
`if misconception_tag and confidence_delta != 0.0` treats both a null tag and
an empty-string tag as falsy. -/
def confidenceUpdate (confidences : List (String × ℚ)) (confirmed : List String)
    (tag? : Option String) (delta : ℚ) : List (String × ℚ) × List String :=
  match tag? with
  | none => (confidences, confirmed)
  | some tag =>
      if tag ≠ "" ∧ delta ≠ 0 then
        let current := (assocGet confidences tag).getD 0
        let newConfidence := max 0 (min 1 (current + delta))
        (assocSet confidences tag newConfidence,
         if (85 : ℚ)/100 ≤ newConfidence ∧ tag ∉ confirmed then
           confirmed ++ [tag]
         else confirmed)
      else (confidences, confirmed)

/-- The `(suspected_misconceptions, confirmed_misconceptions)` pair after
`_update_misconception_confidence`: unchanged when no edge matches, else the
matching edge's tag/delta applied via `confidenceUpdate`. -/
def updatedDiagnostics (form : DiagnosticForm) (s : DiagnosticSession)
    (response : String) : List (String × ℚ) × List String :=
  match findMatchingEdge form.decision_tree.edges s.current_node_id response with
  | none => (s.suspected_misconceptions, s.confirmed_misconceptions)
  | some edge =>
      confidenceUpdate s.suspected_misconceptions s.confirmed_misconceptions
        edge.misconception_tag edge.confidence_delta

/-- `DiagnosticRouter._update_misconception_confidence`: mutates only the
`suspected_misconceptions` / `confirmed_misconceptions` fields. -/
def updateMisconceptionConfidence (form : DiagnosticForm) (s : DiagnosticSession)
    (response : String) : DiagnosticSession :=
  { s with
    suspected_misconceptions := (updatedDiagnostics form s response).1
    confirmed_misconceptions := (updatedDiagnostics form s response).2 }

/-- `DiagnosticRouter._check_terminal`: terminal when the next node is null,
any suspected misconception has confidence `>= 0.9`, or
`len(visited_nodes) >= max_depth + 1`. -/
def checkTerminal (form : DiagnosticForm) (s : DiagnosticSession)
    (nextNodeId : Option String) : Bool :=
  nextNodeId.isNone
    || s.suspected_misconceptions.any (fun p => decide ((9 : ℚ)/10 ≤ p.2))
    || decide (form.max_depth + 1 ≤ s.visited_nodes.length)

/-- `DiagnosticRouter._determine_severity`: `low` when nothing is suspected;
otherwise the highest of {critical, high, medium} present among the catalog
entries of confirmed tags; otherwise `medium` when the maximal suspected
confidence reaches 0.7, else `low`. -/
def determineSeverity (catalog : List CatalogEntry)
    (suspected : List (String × ℚ)) (confirmed : List String) : Severity :=
  if suspected = [] then .low
  else if confirmed ≠ [] ∧ ((catalog.filter (fun m => decide (m.id ∈ confirmed))).map
      (fun m => m.severity)).any (fun sv => sv == .critical) then .critical
  else if confirmed ≠ [] ∧ ((catalog.filter (fun m => decide (m.id ∈ confirmed))).map
      (fun m => m.severity)).any (fun sv => sv == .high) then .high
  else if confirmed ≠ [] ∧ ((catalog.filter (fun m => decide (m.id ∈ confirmed))).map
      (fun m => m.severity)).any (fun sv => sv == .medium) then .medium
  else if (7 : ℚ)/10 ≤ listMax (suspected.map Prod.snd) then .medium
  else .low

/-- `DiagnosticRouter._calculate_confidence_score`: 1.0 with no suspected
misconceptions, else the maximal suspected confidence plus a probe boost of
`min(0.2, 0.1 * (len(visited_nodes) - 1))`, capped at 1.0. The subtraction is
Python int arithmetic, hence over `ℤ`. -/
def calculateConfidenceScore (s : DiagnosticSession) : ℚ :=
  if s.suspected_misconceptions = [] then 1
  else
    let maxConfidence := listMax (s.suspected_misconceptions.map Prod.snd)
    let probeCount : ℤ := (s.visited_nodes.length : ℤ) - 1
    let probeBoost : ℚ := min ((2 : ℚ)/10) ((probeCount : ℚ) * ((1 : ℚ)/10))
    min 1 (maxConfidence + probeBoost)

/-- `DiagnosticRouter._extract_key_evidence`: one `"{node_id}: selected
{option}"` line per recorded response (in dict insertion order) when anything
is suspected, truncated to the first 3. -/
def extractKeyEvidence (s : DiagnosticSession) : List String :=
  (if s.suspected_misconceptions = [] then []
   else s.responses.map (fun p => p.1 ++ ": selected " ++ p.2)).take 3

/-- `DiagnosticRouter._recommend_interventions`: placeholder intervention id
per confirmed tag. -/
def recommendInterventions (confirmed : List String) : List String :=
  confirmed.map (fun tag => "INTERVENTION-" ++ tag)

/-- Models Python string formatting `f"{x:.0%}"` applied to a confidence:
the percentage rounded to the nearest integer. (Python rounds the underlying
binary float half-to-even; on the exact rationals of this model we use
Mathlib `round`. No claim depends on the digits produced.) -/
def formatPercent (x : ℚ) : String :=
  toString (round (x * 100)) ++ "%"

/-- Python `severity.value.upper()`. -/
def severityUpper : Severity → String
  | .low => "LOW"
  | .medium => "MEDIUM"
  | .high => "HIGH"
  | .critical => "CRITICAL"

/-- `DiagnosticRouter._generate_teacher_summary`. -/
def generateTeacherSummary (catalog : List CatalogEntry) (s : DiagnosticSession)
    (primary : Option String) (severity : Severity) : String :=
  match primary with
  | none =>
      "Learner demonstrated mastery of this objective. No significant misconceptions detected."
  | some p =>
      match catalog.find? (fun m => m.id == p) with
      | none =>
          "Learner shows difficulty with this concept (confidence: "
            ++ formatPercent ((assocGet s.suspected_misconceptions p).getD 0) ++ ")."
      | some misc =>
          "**Primary Misconception Detected**: " ++ misc.name ++ "\n\n"
            ++ "**Severity**: " ++ severityUpper severity ++ "\n\n"
            ++ "**Description**: " ++ misc.description ++ "\n\n"
            ++ "**Confidence**: "
            ++ formatPercent ((assocGet s.suspected_misconceptions p).getD 0) ++ "\n\n"
            ++ (if 1 < s.confirmed_misconceptions.length then
                  "**Additional Concerns**: "
                    ++ toString (s.confirmed_misconceptions.length - 1)
                    ++ " other misconceptions detected.\n\n"
                else "")
            ++ "**Recommended Action**: Assign targeted micro-intervention focusing on this misconception."

/-- `DiagnosticRouter._generate_learner_feedback`. -/
def generateLearnerFeedback (s : DiagnosticSession) (primary : Option String) : String :=
  match primary with
  | none =>
      "Great work! You\x27ve shown a strong understanding of this topic. Keep up the excellent effort!"
  | some _ =>
      if s.confirmed_misconceptions = [] then
        "🌟 Great job completing the assessment! You\x27re showing strong understanding. "
          ++ "Your teacher will review your work and help you keep growing your math skills. "
          ++ "Keep up the awesome work!"
      else
        "🌟 Awesome work completing the assessment! You did a great job. "
          ++ "We noticed a few areas where some extra practice will help you become even better. "
          ++ "Your teacher will work with you on fun activities to help these concepts click. "
          ++ "Every mathematician learns by practicing - you\x27re doing great!"

/-- `DiagnosticRouter._generate_result`, evaluated on the session state after
the response is recorded and confidence updated, before `status` is set to
completed. `now` models the `datetime.utcnow()` readings taken while building
the result. -/
def generateResult (catalog : List CatalogEntry) (now : Nat)
    (s : DiagnosticSession) : DiagnosticResult :=
  let primary := argmaxFirst s.suspected_misconceptions
  let severity := determineSeverity catalog s.suspected_misconceptions
    s.confirmed_misconceptions
  { session_id := s.session_id
    learner_id := s.learner_id
    form_id := s.form_id
    primary_misconception := primary
    all_misconceptions := s.suspected_misconceptions
    severity := severity
    response_path := s.visited_nodes
    key_evidence := extractKeyEvidence s
    recommended_interventions := recommendInterventions s.confirmed_misconceptions
    teacher_summary := generateTeacherSummary catalog s primary severity
    learner_feedback := generateLearnerFeedback s primary
    completed_at := now
    total_time_seconds := (now : ℤ) - (s.started_at : ℤ)
    confidence_score := calculateConfidenceScore s }

/-- Step 1 of `next_node`: record `responses[current_node_id] = response`,
append `current_node_id` to `visited_nodes`, stamp `last_activity_at`. -/
def recordResponse (now : Nat) (s : DiagnosticSession) (response : String) :
    DiagnosticSession :=
  { s with
    responses := assocSet s.responses s.current_node_id response
    visited_nodes := s.visited_nodes ++ [s.current_node_id]
    last_activity_at := some now }

/-- `DiagnosticRouter.next_node` on an already-fetched session: record the
response, update confidence, find the next node, check terminal conditions,
then either finalize (status completed, result generated) or move
`current_node_id` forward. Note the code never reads `session.status` here.
In the non-terminal branch `checkTerminal` being false forces the next node
id to be `some _` (a null next node is terminal condition 1), so the `getD`
default is dead code. -/
def advanceSession (form : DiagnosticForm) (catalog : List CatalogEntry)
    (now : Nat) (s : DiagnosticSession) (response : String) :
    DiagnosticSession × AdvanceOutcome :=
  let s₂ := updateMisconceptionConfidence form (recordResponse now s response) response
  let nextNodeId := findNextNode form.decision_tree s₂.current_node_id response
  if checkTerminal form s₂ nextNodeId then
    ({ s₂ with
        status := .completed
        completed_at := some now
        total_time_seconds := some ((now : ℤ) - (s₂.started_at : ℤ)) },
     { terminal := true
       next_node := none
       result := some (generateResult catalog now s₂) })
  else
    ({ s₂ with current_node_id := nextNodeId.getD s₂.current_node_id },
     { terminal := false, next_node := nextNodeId, result := none })

/-- The session created by `DiagnosticRouter.start_session` (the form
fetch/generation and the uuid draw are external; the fresh session id and
clock reading are inputs). -/
def startSession (sid learner : String) (form : DiagnosticForm) (now : Nat) :
    DiagnosticSession :=
  { session_id := sid
    learner_id := learner
    form_id := form.form_id
    current_node_id := form.root_item_id
    visited_nodes := []
    responses := []
    suspected_misconceptions := []
    confirmed_misconceptions := []
    status := .inProgress
    started_at := now
    last_activity_at := none
    completed_at := none
    total_time_seconds := none }

/-- A caller driving one session: issue `next_node` once per listed
`(response, clock-time)` pair, stopping at the first terminal outcome (as the
API caller does). Returns the final session state and the result of the
completing call, if any. -/
def runSession (form : DiagnosticForm) (catalog : List CatalogEntry)
    (s : DiagnosticSession) :
    List (String × Nat) → DiagnosticSession × Option DiagnosticResult
  | [] => (s, none)
  | (response, now) :: rest =>
      let step := advanceSession form catalog now s response
      if step.2.terminal then (step.1, step.2.result)
      else runSession form catalog step.1 rest

/-- Errors raised by the router's public `next_node` path: `_get_session`
raises `ValueError("Session ... not found")` for an unknown session id. The
code has no completed-session check and no unknown-option error. -/
inductive RouterError where
  | sessionNotFound (sid : String)
deriving DecidableEq, Repr

/-- `DiagnosticRouter._get_session`: fetch by session id or raise. -/
def getSessionStore (store : List (String × DiagnosticSession)) (sid : String) :
    Except RouterError DiagnosticSession :=
  match assocGet store sid with
  | none => .error (.sessionNotFound sid)
  | some s => .ok s

/-- The store-level `next_node` entry point: fetch the session (the only
failure), then process the response — the fetched session's `status` is never
consulted. -/
def nextNodeStore (form : DiagnosticForm) (catalog : List CatalogEntry)
    (now : Nat) (store : List (String × DiagnosticSession)) (sid response : String) :
    Except RouterError (DiagnosticSession × AdvanceOutcome) :=
  (getSessionStore store sid).map (fun s => advanceSession form catalog now s response)

/-- The deterministic navigation state of a session: every field except the
externally-drawn `session_id` and the wall-clock timestamps. -/
structure SessionCore where
  learner_id : String
  form_id : String
  current_node_id : String
  visited_nodes : List String
  responses : List (String × String)
  suspected_misconceptions : List (String × ℚ)
  confirmed_misconceptions : List String
  status : SessionStatus
deriving DecidableEq, Repr

/-- Project a session to its deterministic navigation state. -/
def DiagnosticSession.core (s : DiagnosticSession) : SessionCore :=
  { learner_id := s.learner_id
    form_id := s.form_id
    current_node_id := s.current_node_id
    visited_nodes := s.visited_nodes
    responses := s.responses
    suspected_misconceptions := s.suspected_misconceptions
    confirmed_misconceptions := s.confirmed_misconceptions
    status := s.status }

/-- The fields of a `DiagnosticResult` that do not depend on the drawn
session id or on wall-clock time. -/
structure ResultCore where
  learner_id : String
  form_id : String
  primary_misconception : Option String
  all_misconceptions : List (String × ℚ)
  severity : Severity
  response_path : List String
  key_evidence : List String
  recommended_interventions : List String
  teacher_summary : String
  learner_feedback : String
  confidence_score : ℚ
deriving DecidableEq, Repr

/-- Project a result to its clock- and uuid-independent fields. -/
def DiagnosticResult.core (r : DiagnosticResult) : ResultCore :=
  { learner_id := r.learner_id
    form_id := r.form_id
    primary_misconception := r.primary_misconception
    all_misconceptions := r.all_misconceptions
    severity := r.severity
    response_path := r.response_path
    key_evidence := r.key_evidence
    recommended_interventions := r.recommended_interventions
    teacher_summary := r.teacher_summary
    learner_feedback := r.learner_feedback
    confidence_score := r.confidence_score }

/-- The confidence-score formula exactly as §4.5 of the specification words
it: `min(1.0, max(suspected.values()) + min(0.2, 0.1 * (len(visited_nodes) -
1)))`, and `1.0` when nothing is suspected. Stated separately from
`calculateConfidenceScore` (which is transcribed from the code) so the two
can be compared. -/
def confidenceScoreSpec (s : DiagnosticSession) : ℚ :=
  if s.suspected_misconceptions = [] then 1
  else
    min 1 (listMax (s.suspected_misconceptions.map Prod.snd) +
      min ((2 : ℚ)/10) (((1 : ℚ)/10) * ((((s.visited_nodes.length : ℤ) : ℚ)) - 1)))

/-- Position of a severity in the order `low < medium < high < critical`. -/
def severityRank : Severity → Nat
  | .low => 0
  | .medium => 1
  | .high => 2
  | .critical => 3

/-- The severity at a given rank (ranks above 3 do not occur). -/
def severityOfRank : Nat → Severity
  | 0 => .low
  | 1 => .medium
  | 2 => .high
  | _ => .critical

/-- Rank of the maximum severity among the catalog entries whose key appears
in `confirmed` (0 when there are none). -/
def maxCatalogSeverityRank (catalog : List CatalogEntry) (confirmed : List String) : Nat :=
  ((catalog.filter (fun m => decide (m.id ∈ confirmed))).map
    (fun m => severityRank m.severity)).foldr max 0

/-- The severity rule as amended from the code: low when nothing is
suspected (regardless of `confirmed`); otherwise the maximum catalog severity
among confirmed tags whenever that maximum is at least `medium`; otherwise
(no confirmed tag above `low` in the catalog) `medium` when the maximal
suspected confidence reaches 0.7, else `low`. -/
def severitySpecAmended (catalog : List CatalogEntry)
    (suspected : List (String × ℚ)) (confirmed : List String) : Severity :=
  if suspected = [] then .low
  else if 1 ≤ maxCatalogSeverityRank catalog confirmed then
    severityOfRank (maxCatalogSeverityRank catalog confirmed)
  else if (7 : ℚ)/10 ≤ listMax (suspected.map Prod.snd) then .medium
  else .low

/-! ### Concrete fixtures -/

/-- A small concrete diagnostic form: root item `N1` whose correct option `A`
ends the assessment (edge to null) and whose distractor `B` (tag `MISC-1`,
delta 0.6) routes to probe `P1`; the probe's wrong option `X` adds another
0.6 to the same tag and ends the assessment. -/
def sampleForm : DiagnosticForm :=
  { form_id := "FORM-1"
    root_item_id := "N1"
    decision_tree :=
      { nodes := ["N1", "P1"]
        edges :=
          [ { from_node_id := "N1", option_selected := "A", to_node_id := none,
              misconception_tag := none, confidence_delta := 0 },
            { from_node_id := "N1", option_selected := "B", to_node_id := some "P1",
              misconception_tag := some "MISC-1", confidence_delta := (6 : ℚ)/10 },
            { from_node_id := "P1", option_selected := "X", to_node_id := none,
              misconception_tag := some "MISC-1", confidence_delta := (6 : ℚ)/10 } ] }
    max_depth := 3 }

/-- A catalog in which the misconception tested by `sampleForm` is ranked
`low`. -/
def lowCatalog : List CatalogEntry :=
  [{ id := "MISC-1", name := "Add across the board",
     description := "Applies one operation to every column", severity := .low }]

/-- A form whose root distractor `B` carries delta 0.95 and routes to a
non-null probe `P1` — the high-confidence early-exit scenario. -/
def earlyExitForm : DiagnosticForm :=
  { form_id := "FORM-9"
    root_item_id := "ROOT"
    decision_tree :=
      { nodes := ["ROOT", "P1"]
        edges :=
          [ { from_node_id := "ROOT", option_selected := "A", to_node_id := none,
              misconception_tag := none, confidence_delta := 0 },
            { from_node_id := "ROOT", option_selected := "B", to_node_id := some "P1",
              misconception_tag := some "MISC-9", confidence_delta := (19 : ℚ)/20 },
            { from_node_id := "P1", option_selected := "X", to_node_id := none,
              misconception_tag := some "MISC-9", confidence_delta := (1 : ℚ)/10 } ] }
    max_depth := 3 }

/-- A mid-run session on `sampleForm` whose tag `MISC-0` is already
confirmed. -/
def preConfirmedSession : DiagnosticSession :=
  { session_id := "S-PRE"
    learner_id := "L"
    form_id := "FORM-1"
    current_node_id := "N1"
    visited_nodes := []
    responses := []
    suspected_misconceptions := [("MISC-0", (9 : ℚ)/10)]
    confirmed_misconceptions := ["MISC-0"]
    status := .inProgress
    started_at := 0
    last_activity_at := none
    completed_at := none
    total_time_seconds := none }

/-- A session holding a suspected misconception at confidence 0.95. -/
def highConfSession : DiagnosticSession :=
  { session_id := "S-HI"
    learner_id := "L"
    form_id := "FORM-9"
    current_node_id := "ROOT"
    visited_nodes := ["ROOT"]
    responses := [("ROOT", "B")]
    suspected_misconceptions := [("MISC-9", (19 : ℚ)/20)]
    confirmed_misconceptions := ["MISC-9"]
    status := .inProgress
    started_at := 0
    last_activity_at := some 1
    completed_at := none
    total_time_seconds := none }

/-- A session on `sampleForm` that already finished (status completed,
stopped at probe `P1`). -/
def completedSession : DiagnosticSession :=
  { session_id := "S-DONE"
    learner_id := "L"
    form_id := "FORM-1"
    current_node_id := "P1"
    visited_nodes := ["N1"]
    responses := [("N1", "B")]
    suspected_misconceptions := [("MISC-1", (6 : ℚ)/10)]
    confirmed_misconceptions := []
    status := .completed
    started_at := 0
    last_activity_at := some 1
    completed_at := some 1
    total_time_seconds := some 1 }

/-! ### Association-list lemmas -/

theorem assocGet_assocSet {β : Type} (l : List (String × β)) (k k' : String) (v : β) :
    assocGet (assocSet l k v) k' = if k = k' then some v else assocGet l k' := by
  induction l with
  | nil => simp [assocGet, assocSet]
  | cons p rest ih =>
      obtain ⟨k₀, v₀⟩ := p
      by_cases h₀ : k₀ = k
      · subst h₀
        simp only [assocSet, if_pos rfl, assocGet]
        by_cases h₁ : k₀ = k' <;> simp [h₁]
      · simp only [assocSet, if_neg h₀, assocGet]
        by_cases h₁ : k₀ = k'
        · subst h₁
          have hk : ¬ k = k₀ := fun h => h₀ h.symm
          simp [ih, hk]
        · simp [h₁, ih]

theorem assocGet_assocSet_self {β : Type} (l : List (String × β)) (k : String) (v : β) :
    assocGet (assocSet l k v) k = some v := by
  simp [assocGet_assocSet]

theorem mem_assocSet {β : Type} {k : String} {v : β} {p : String × β} :
    ∀ {l : List (String × β)}, p ∈ assocSet l k v → p = (k, v) ∨ p ∈ l := by
  intro l
  induction l with
  | nil =>
      intro h
      simpa [assocSet] using h
  | cons q rest ih =>
      obtain ⟨k₀, v₀⟩ := q
      intro h
      by_cases h₀ : k₀ = k
      · subst h₀
        simp [assocSet] at h
        rcases h with h | h
        · exact Or.inl (by simp [h])
        · exact Or.inr (List.mem_cons_of_mem _ h)
      · simp only [assocSet, if_neg h₀, List.mem_cons] at h
        rcases h with h | h
        · exact Or.inr (by simp [h])
        · rcases ih h with h' | h'
          · exact Or.inl h'
          · exact Or.inr (List.mem_cons_of_mem _ h')

/-! ### Structural lemmas about one `next_node` call -/

theorem advance_visited_eq (form : DiagnosticForm) (catalog : List CatalogEntry)
    (now : Nat) (s : DiagnosticSession) (response : String) :
    (advanceSession form catalog now s response).1.visited_nodes =
      s.visited_nodes ++ [s.current_node_id] := by
  simp only [advanceSession]
  split <;> rfl

theorem advance_responses_eq (form : DiagnosticForm) (catalog : List CatalogEntry)
    (now : Nat) (s : DiagnosticSession) (response : String) :
    (advanceSession form catalog now s response).1.responses =
      assocSet s.responses s.current_node_id response := by
  simp only [advanceSession]
  split <;> rfl

theorem advance_suspected_eq (form : DiagnosticForm) (catalog : List CatalogEntry)
    (now : Nat) (s : DiagnosticSession) (response : String) :
    (advanceSession form catalog now s response).1.suspected_misconceptions =
      (updatedDiagnostics form s response).1 := by
  simp only [advanceSession]
  split <;> rfl

theorem advance_confirmed_eq (form : DiagnosticForm) (catalog : List CatalogEntry)
    (now : Nat) (s : DiagnosticSession) (response : String) :
    (advanceSession form catalog now s response).1.confirmed_misconceptions =
      (updatedDiagnostics form s response).2 := by
  simp only [advanceSession]
  split <;> rfl

theorem advance_terminal_complete (form : DiagnosticForm) (catalog : List CatalogEntry)
    (now : Nat) (s : DiagnosticSession) (response : String)
    (h : (advanceSession form catalog now s response).2.terminal = true) :
    (advanceSession form catalog now s response).1.status = .completed ∧
      ((advanceSession form catalog now s response).2.result).isSome = true := by
  revert h
  simp only [advanceSession]
  split
  · intro _
    exact ⟨rfl, rfl⟩
  · intro h
    simp at h

theorem advance_nonterminal (form : DiagnosticForm) (catalog : List CatalogEntry)
    (now : Nat) (s : DiagnosticSession) (response : String)
    (h : (advanceSession form catalog now s response).2.terminal = false) :
    (advanceSession form catalog now s response).1.status = s.status ∧
      (advanceSession form catalog now s response).1.visited_nodes.length ≤ form.max_depth := by
  revert h
  simp only [advanceSession]
  split
  · intro h
    simp at h
  · rename_i hterm
    intro _
    refine ⟨rfl, ?_⟩
    simp only [Bool.not_eq_true, checkTerminal, Bool.or_eq_false_iff,
      decide_eq_false_iff_not, not_le] at hterm
    have hlen := hterm.2
    simp only [updateMisconceptionConfidence, recordResponse, List.length_append,
      List.length_cons, List.length_nil] at hlen ⊢
    omega

/-! ### Confidence-tracker lemmas -/

theorem confidenceUpdate_fst_bounds (confidences : List (String × ℚ))
    (confirmed : List String) (tag? : Option String) (delta : ℚ)
    (hb : ∀ p ∈ confidences, 0 ≤ p.2 ∧ p.2 ≤ 1) :
    ∀ p ∈ (confidenceUpdate confidences confirmed tag? delta).1, 0 ≤ p.2 ∧ p.2 ≤ 1 := by
  intro p hp
  cases tag? with
  | none => exact hb p hp
  | some tag =>
      simp only [confidenceUpdate] at hp
      split at hp
      · rcases mem_assocSet hp with h | h
        · rw [h]
          refine ⟨le_max_left 0 _, ?_⟩
          exact max_le zero_le_one (min_le_left 1 _)
        · exact hb p h
      · exact hb p hp

theorem confidenceUpdate_snd_mono (confidences : List (String × ℚ))
    (confirmed : List String) (tag? : Option String) (delta : ℚ) (tag : String)
    (h : tag ∈ confirmed) : tag ∈ (confidenceUpdate confidences confirmed tag? delta).2 := by
  cases tag? with
  | none => exact h
  | some t =>
      simp only [confidenceUpdate]
      split
      · split
        · exact List.mem_append_left _ h
        · exact h
      · exact h

theorem confidenceUpdate_key_present (confidences : List (String × ℚ))
    (confirmed : List String) (tag? : Option String) (delta : ℚ)
    (hinv : ∀ t ∈ confirmed, (assocGet confidences t).isSome = true) :
    ∀ t ∈ (confidenceUpdate confidences confirmed tag? delta).2,
      (assocGet (confidenceUpdate confidences confirmed tag? delta).1 t).isSome = true := by
  intro t ht
  cases tag? with
  | none => exact hinv t ht
  | some tag =>
      by_cases hguard : tag ≠ "" ∧ delta ≠ 0
      · have hget : ∀ t' : String, t' ∈ confirmed →
            (assocGet (assocSet confidences tag
              (max 0 (min 1 ((assocGet confidences tag).getD 0 + delta)))) t').isSome = true := by
          intro t' ht'
          rw [assocGet_assocSet]
          by_cases hkt : tag = t'
          · simp [hkt]
          · simpa [hkt] using hinv t' ht'
        simp only [confidenceUpdate, if_pos hguard] at ht ⊢
        split at ht
        · rcases List.mem_append.mp ht with h | h
          · exact hget t h
          · have ht2 : t = tag := by simpa using h
            subst ht2
            simp [assocGet_assocSet_self]
        · exact hget t ht
      · simp only [confidenceUpdate, if_neg hguard] at ht ⊢
        exact hinv t ht

/-! ### Lifting the update lemmas through `updatedDiagnostics` and one call -/

theorem updatedDiagnostics_fst_bounds (form : DiagnosticForm) (s : DiagnosticSession)
    (response : String) (hb : ∀ p ∈ s.suspected_misconceptions, 0 ≤ p.2 ∧ p.2 ≤ 1) :
    ∀ p ∈ (updatedDiagnostics form s response).1, 0 ≤ p.2 ∧ p.2 ≤ 1 := by
  unfold updatedDiagnostics
  split
  · exact hb
  · exact confidenceUpdate_fst_bounds _ _ _ _ hb

theorem updatedDiagnostics_snd_mono (form : DiagnosticForm) (s : DiagnosticSession)
    (response : String) (tag : String) (h : tag ∈ s.confirmed_misconceptions) :
    tag ∈ (updatedDiagnostics form s response).2 := by
  unfold updatedDiagnostics
  split
  · exact h
  · exact confidenceUpdate_snd_mono _ _ _ _ _ h

theorem updatedDiagnostics_key_present (form : DiagnosticForm) (s : DiagnosticSession)
    (response : String)
    (hinv : ∀ t ∈ s.confirmed_misconceptions,
      (assocGet s.suspected_misconceptions t).isSome = true) :
    ∀ t ∈ (updatedDiagnostics form s response).2,
      (assocGet (updatedDiagnostics form s response).1 t).isSome = true := by
  unfold updatedDiagnostics
  split
  · exact hinv
  · exact confidenceUpdate_key_present _ _ _ _ hinv

theorem advance_suspected_bounds (form : DiagnosticForm) (catalog : List CatalogEntry)
    (now : Nat) (s : DiagnosticSession) (response : String)
    (hb : ∀ p ∈ s.suspected_misconceptions, 0 ≤ p.2 ∧ p.2 ≤ 1) :
    ∀ p ∈ (advanceSession form catalog now s response).1.suspected_misconceptions,
      0 ≤ p.2 ∧ p.2 ≤ 1 := by
  rw [advance_suspected_eq]
  exact updatedDiagnostics_fst_bounds form s response hb

theorem advance_confirmed_mono (form : DiagnosticForm) (catalog : List CatalogEntry)
    (now : Nat) (s : DiagnosticSession) (response : String) (tag : String)
    (h : tag ∈ s.confirmed_misconceptions) :
    tag ∈ (advanceSession form catalog now s response).1.confirmed_misconceptions := by
  rw [advance_confirmed_eq]
  exact updatedDiagnostics_snd_mono form s response tag h

theorem advance_key_present (form : DiagnosticForm) (catalog : List CatalogEntry)
    (now : Nat) (s : DiagnosticSession) (response : String)
    (hinv : ∀ t ∈ s.confirmed_misconceptions,
      (assocGet s.suspected_misconceptions t).isSome = true) :
    ∀ t ∈ (advanceSession form catalog now s response).1.confirmed_misconceptions,
      (assocGet (advanceSession form catalog now s response).1.suspected_misconceptions t).isSome
        = true := by
  rw [advance_confirmed_eq, advance_suspected_eq]
  exact updatedDiagnostics_key_present form s response hinv

/-! ### Run-level invariants -/

theorem runSession_suspected_bounds (form : DiagnosticForm) (catalog : List CatalogEntry) :
    ∀ (calls : List (String × Nat)) (s : DiagnosticSession),
      (∀ p ∈ s.suspected_misconceptions, 0 ≤ p.2 ∧ p.2 ≤ 1) →
      ∀ p ∈ (runSession form catalog s calls).1.suspected_misconceptions,
        0 ≤ p.2 ∧ p.2 ≤ 1 := by
  intro calls
  induction calls with
  | nil =>
      intro s hb
      simpa [runSession] using hb
  | cons c rest ih =>
      obtain ⟨resp, now⟩ := c
      intro s hb
      simp only [runSession]
      split
      · exact advance_suspected_bounds form catalog now s resp hb
      · exact ih _ (advance_suspected_bounds form catalog now s resp hb)

theorem runSession_confirmed_mono (form : DiagnosticForm) (catalog : List CatalogEntry) :
    ∀ (calls : List (String × Nat)) (s : DiagnosticSession) (tag : String),
      tag ∈ s.confirmed_misconceptions →
      tag ∈ (runSession form catalog s calls).1.confirmed_misconceptions := by
  intro calls
  induction calls with
  | nil =>
      intro s tag h
      simpa [runSession] using h
  | cons c rest ih =>
      obtain ⟨resp, now⟩ := c
      intro s tag h
      simp only [runSession]
      split
      · exact advance_confirmed_mono form catalog now s resp tag h
      · exact ih _ tag (advance_confirmed_mono form catalog now s resp tag h)

theorem runSession_key_present (form : DiagnosticForm) (catalog : List CatalogEntry) :
    ∀ (calls : List (String × Nat)) (s : DiagnosticSession),
      (∀ t ∈ s.confirmed_misconceptions,
        (assocGet s.suspected_misconceptions t).isSome = true) →
      ∀ t ∈ (runSession form catalog s calls).1.confirmed_misconceptions,
        (assocGet (runSession form catalog s calls).1.suspected_misconceptions t).isSome
          = true := by
  intro calls
  induction calls with
  | nil =>
      intro s hinv
      simpa [runSession] using hinv
  | cons c rest ih =>
      obtain ⟨resp, now⟩ := c
      intro s hinv
      simp only [runSession]
      split
      · exact advance_key_present form catalog now s resp hinv
      · exact ih _ (advance_key_present form catalog now s resp hinv)

theorem runSession_completes (form : DiagnosticForm) (catalog : List CatalogEntry) :
    ∀ (calls : List (String × Nat)) (s : DiagnosticSession),
      s.status = .inProgress →
      s.visited_nodes.length ≤ form.max_depth →
      form.max_depth + 1 ≤ s.visited_nodes.length + calls.length →
      (runSession form catalog s calls).1.status = .completed ∧
        ((runSession form catalog s calls).2).isSome = true := by
  intro calls
  induction calls with
  | nil =>
      intro s h₁ h₂ h₃
      simp only [List.length_nil] at h₃
      omega
  | cons c rest ih =>
      obtain ⟨resp, now⟩ := c
      intro s h₁ h₂ h₃
      simp only [runSession]
      split
      · rename_i hterm
        exact advance_terminal_complete form catalog now s resp hterm
      · rename_i hterm
        have hnt : (advanceSession form catalog now s resp).2.terminal = false := by
          simpa using hterm
        obtain ⟨hst, hle⟩ := advance_nonterminal form catalog now s resp hnt
        have hvl : (advanceSession form catalog now s resp).1.visited_nodes.length
            = s.visited_nodes.length + 1 := by
          rw [advance_visited_eq]
          simp
        refine ih _ (by rw [hst]; exact h₁) (by omega) ?_
        rw [hvl]
        simp only [List.length_cons] at h₃
        omega

/-! ### Determinism of the navigation core -/

theorem advance_core_congr (form : DiagnosticForm) (catalog : List CatalogEntry)
    (t₁ t₂ : Nat) (s₁ s₂ : DiagnosticSession) (response : String)
    (h : s₁.core = s₂.core) :
    (advanceSession form catalog t₁ s₁ response).1.core =
        (advanceSession form catalog t₂ s₂ response).1.core ∧
      (advanceSession form catalog t₁ s₁ response).2.terminal =
        (advanceSession form catalog t₂ s₂ response).2.terminal ∧
      ((advanceSession form catalog t₁ s₁ response).2.result).map DiagnosticResult.core =
        ((advanceSession form catalog t₂ s₂ response).2.result).map DiagnosticResult.core := by
  obtain ⟨sid₁, L₁, F₁, cur₁, vis₁, resp₁, susp₁, conf₁, st₁, sa₁, la₁, ca₁, tt₁⟩ := s₁
  obtain ⟨sid₂, L₂, F₂, cur₂, vis₂, resp₂, susp₂, conf₂, st₂, sa₂, la₂, ca₂, tt₂⟩ := s₂
  simp only [DiagnosticSession.core, SessionCore.mk.injEq] at h
  obtain ⟨h1, h2, h3, h4, h5, h6, h7, h8⟩ := h
  subst h1 h2 h3 h4 h5 h6 h7 h8
  simp only [advanceSession]
  split_ifs with hb₁ hb₂ hb₂
  · exact ⟨rfl, rfl, rfl⟩
  · exact absurd hb₁ hb₂
  · exact absurd hb₂ hb₁
  · exact ⟨rfl, rfl, rfl⟩

theorem runSession_core_congr (form : DiagnosticForm) (catalog : List CatalogEntry) :
    ∀ (calls₁ calls₂ : List (String × Nat)) (s₁ s₂ : DiagnosticSession),
      calls₁.map Prod.fst = calls₂.map Prod.fst →
      s₁.core = s₂.core →
      (runSession form catalog s₁ calls₁).1.core =
          (runSession form catalog s₂ calls₂).1.core ∧
        ((runSession form catalog s₁ calls₁).2).map DiagnosticResult.core =
          ((runSession form catalog s₂ calls₂).2).map DiagnosticResult.core := by
  intro calls₁
  induction calls₁ with
  | nil =>
      intro calls₂ s₁ s₂ hmap hcore
      have hnil : calls₂ = [] := by
        cases calls₂ with
        | nil => rfl
        | cons _ _ => simp at hmap
      subst hnil
      exact ⟨hcore, rfl⟩
  | cons c rest ih =>
      obtain ⟨r, t₁⟩ := c
      intro calls₂ s₁ s₂ hmap hcore
      cases calls₂ with
      | nil => simp at hmap
      | cons c₂ rest₂ =>
          obtain ⟨r₂, t₂⟩ := c₂
          simp only [List.map_cons, List.cons.injEq] at hmap
          obtain ⟨hr, hrest⟩ := hmap
          subst hr
          obtain ⟨hc, ht, hres⟩ := advance_core_congr form catalog t₁ t₂ s₁ s₂ r hcore
          simp only [runSession]
          split
          · rename_i hb₁
            have hb₂ : (advanceSession form catalog t₂ s₂ r).2.terminal = true := by
              rw [← ht]; exact hb₁
            rw [if_pos hb₂]
            exact ⟨hc, hres⟩
          · rename_i hb₁
            have hb₂ : ¬ ((advanceSession form catalog t₂ s₂ r).2.terminal = true) := by
              rw [← ht]; exact hb₁
            rw [if_neg hb₂]
            exact ih rest₂ _ _ hrest hc

/-! ### Claim C1 -/

unseal Rat.add Rat.mul Rat.inv Rat.sub in
/-- C1 (counterexample): the claim says a response option with no matching
edge yields an `UnknownOption` error and leaves `visited_nodes` / `responses`
unchanged. On the code, option `Z` on the root of `sampleForm` has no
matching edge, yet `next_node` appends the node to `visited_nodes`, records
the response, raises no error and completes the session with a result. -/
theorem C1_counterexample :
    findMatchingEdge sampleForm.decision_tree.edges
        (startSession "S" "L" sampleForm 0).current_node_id "Z" = none ∧
      (startSession "S" "L" sampleForm 0).visited_nodes = [] ∧
      (advanceSession sampleForm [] 5 (startSession "S" "L" sampleForm 0) "Z").1.visited_nodes
        = ["N1"] ∧
      (advanceSession sampleForm [] 5 (startSession "S" "L" sampleForm 0) "Z").1.responses
        = [("N1", "Z")] ∧
      (advanceSession sampleForm [] 5 (startSession "S" "L" sampleForm 0) "Z").2.terminal
        = true ∧
      (advanceSession sampleForm [] 5 (startSession "S" "L" sampleForm 0) "Z").1.status
        = SessionStatus.completed := by
  decide

/-- C1 (amended): when the selected option has no matching edge from the
current node, `next_node` does not error: it still records the response and
appends the current node to `visited_nodes`, leaves the confidence state
unchanged, and treats the missing edge as a terminal condition — the session
is completed and a result returned. -/
theorem C1_unmatched_option_recorded_and_terminal
    (form : DiagnosticForm) (catalog : List CatalogEntry) (now : Nat)
    (s : DiagnosticSession) (response : String)
    (h : findMatchingEdge form.decision_tree.edges s.current_node_id response = none) :
    (advanceSession form catalog now s response).1.status = SessionStatus.completed ∧
      (advanceSession form catalog now s response).1.visited_nodes
        = s.visited_nodes ++ [s.current_node_id] ∧
      (advanceSession form catalog now s response).1.responses
        = assocSet s.responses s.current_node_id response ∧
      (advanceSession form catalog now s response).1.suspected_misconceptions
        = s.suspected_misconceptions ∧
      (advanceSession form catalog now s response).1.confirmed_misconceptions
        = s.confirmed_misconceptions ∧
      (advanceSession form catalog now s response).2.terminal = true ∧
      ((advanceSession form catalog now s response).2.result).isSome = true := by
  have hupd : updatedDiagnostics form s response
      = (s.suspected_misconceptions, s.confirmed_misconceptions) := by
    unfold updatedDiagnostics
    rw [h]
  have hnext : findNextNode form.decision_tree
      (updateMisconceptionConfidence form (recordResponse now s response)
        response).current_node_id response = none := by
    show findNextNode form.decision_tree s.current_node_id response = none
    unfold findNextNode
    rw [h]
  have hterminal : (advanceSession form catalog now s response).2.terminal = true := by
    simp only [advanceSession]
    rw [hnext]
    simp [checkTerminal]
  refine ⟨(advance_terminal_complete form catalog now s response hterminal).1,
    advance_visited_eq form catalog now s response,
    advance_responses_eq form catalog now s response, ?_, ?_, hterminal,
    (advance_terminal_complete form catalog now s response hterminal).2⟩
  · rw [advance_suspected_eq, hupd]
  · rw [advance_confirmed_eq, hupd]

unseal Rat.add Rat.mul Rat.inv Rat.sub in
/-- C1 (witness): the amended theorem applied to `sampleForm`, option `Q`. -/
theorem C1_witness :
    (advanceSession sampleForm [] 3 (startSession "W1" "L" sampleForm 0) "Q").1.status
        = SessionStatus.completed ∧
      (advanceSession sampleForm [] 3 (startSession "W1" "L" sampleForm 0) "Q").2.terminal
        = true :=
  ⟨(C1_unmatched_option_recorded_and_terminal sampleForm [] 3
      (startSession "W1" "L" sampleForm 0) "Q" (by decide)).1,
    (C1_unmatched_option_recorded_and_terminal sampleForm [] 3
      (startSession "W1" "L" sampleForm 0) "Q" (by decide)).2.2.2.2.2.1⟩

/-! ### Claim C2 -/

/-- C2: for any form with `max_depth = D` and any response sequence, a session
started by `start_session` is completed, with a result produced, within at
most `D + 1` calls of `next_node`: supplying `D + 1` (or more) calls always
ends with `status = completed` and a returned result (the run stops issuing
calls at the first terminal outcome, so the completing call is at position
at most `D + 1`). -/
theorem C2_termination_within_depth
    (form : DiagnosticForm) (catalog : List CatalogEntry) (sid learner : String)
    (t : Nat) (calls : List (String × Nat))
    (h : form.max_depth + 1 ≤ calls.length) :
    (runSession form catalog (startSession sid learner form t) calls).1.status
        = SessionStatus.completed ∧
      ((runSession form catalog (startSession sid learner form t) calls).2).isSome = true := by
  refine runSession_completes form catalog calls _ rfl ?_ ?_
  · exact Nat.zero_le _
  · simpa [startSession] using h

unseal Rat.add Rat.mul Rat.inv Rat.sub in
/-- C2 (witness): four calls on `sampleForm` (max_depth 3) complete it. -/
theorem C2_witness :
    sampleForm.max_depth + 1
        ≤ ([("A", 1), ("A", 2), ("A", 3), ("A", 4)] : List (String × Nat)).length ∧
      (runSession sampleForm [] (startSession "W2" "L" sampleForm 0)
          [("A", 1), ("A", 2), ("A", 3), ("A", 4)]).1.status = SessionStatus.completed :=
  ⟨by decide,
    (C2_termination_within_depth sampleForm [] "W2" "L" 0
      [("A", 1), ("A", 2), ("A", 3), ("A", 4)] (by decide)).1⟩

/-! ### Claim C3 -/

/-- C3: (monotonicity) once a tag is in `confirmed_misconceptions` it stays
there across any further sequence of `next_node` calls, whatever deltas are
applied later; and (threshold) at each single confidence update, the updated
confirmed set contains a tag exactly when the tag was already confirmed or
this update applied that tag (non-empty, non-zero delta) and the confidence
value just stored for it is at least 0.85. -/
theorem C3_confirmation_monotonic :
    (∀ (form : DiagnosticForm) (catalog : List CatalogEntry) (s : DiagnosticSession)
        (calls : List (String × Nat)) (tag : String),
        tag ∈ s.confirmed_misconceptions →
        tag ∈ (runSession form catalog s calls).1.confirmed_misconceptions) ∧
      (∀ (confidences : List (String × ℚ)) (confirmed : List String)
          (tag? : Option String) (delta : ℚ) (tag : String),
          tag ∈ (confidenceUpdate confidences confirmed tag? delta).2 ↔
            tag ∈ confirmed ∨
              (tag? = some tag ∧ tag ≠ "" ∧ delta ≠ 0 ∧
                ∃ c, assocGet (confidenceUpdate confidences confirmed tag? delta).1 tag
                      = some c ∧ (85 : ℚ)/100 ≤ c)) := by
  constructor
  · exact fun form catalog s calls tag hmem =>
      runSession_confirmed_mono form catalog calls s tag hmem
  · intro confidences confirmed tag? delta tag
    cases tag? with
    | none => simp [confidenceUpdate]
    | some t =>
        by_cases hguard : t ≠ "" ∧ delta ≠ 0
        · simp only [confidenceUpdate, if_pos hguard]
          by_cases htag : t = tag
          · subst htag
            have hself := assocGet_assocSet_self confidences t
              (max 0 (min 1 ((assocGet confidences t).getD 0 + delta)))
            by_cases hc : (85 : ℚ)/100 ≤ max 0 (min 1 ((assocGet confidences t).getD 0 + delta))
            · by_cases hm : t ∈ confirmed
              · simp [hm, hc, hself, hguard.1, hguard.2]
              · simp [hm, hc, hself, hguard.1, hguard.2]
            · simp [hc, hself, hguard.1, hguard.2]
          · constructor
            · intro hmem
              split at hmem
              · rcases List.mem_append.mp hmem with hmem | hmem
                · exact Or.inl hmem
                · have heq : tag = t := by simpa using hmem
                  exact absurd heq.symm htag
              · exact Or.inl hmem
            · intro hmem
              rcases hmem with hmem | ⟨heq, _⟩
              · split
                · exact List.mem_append_left _ hmem
                · exact hmem
              · exact absurd (Option.some.inj heq) htag
        · simp only [confidenceUpdate, if_neg hguard]
          constructor
          · exact Or.inl
          · intro hmem
            rcases hmem with hmem | ⟨heq, hne, hd, _⟩
            · exact hmem
            · rw [Option.some.inj heq] at hguard
              exact absurd ⟨hne, hd⟩ hguard

unseal Rat.add Rat.mul Rat.inv Rat.sub in
/-- C3 (witness): the already-confirmed tag survives a further call on
`sampleForm`, and the threshold equivalence instantiated at a fresh tag and
delta 1. -/
theorem C3_witness :
    ("MISC-0" ∈ (runSession sampleForm [] preConfirmedSession
        [("A", 1)]).1.confirmed_misconceptions) ∧
      ("M" ∈ (confidenceUpdate [] [] (some "M") 1).2 ↔
        "M" ∈ ([] : List String) ∨
          ((some "M" : Option String) = some "M" ∧ "M" ≠ "" ∧ (1 : ℚ) ≠ 0 ∧
            ∃ c, assocGet (confidenceUpdate [] [] (some "M") 1).1 "M" = some c ∧
              (85 : ℚ)/100 ≤ c)) :=
  ⟨C3_confirmation_monotonic.1 sampleForm [] preConfirmedSession [("A", 1)] "MISC-0"
      (by decide),
    C3_confirmation_monotonic.2 [] [] (some "M") 1 "M"⟩

/-! ### Claim C4 -/

/-- C4: starting from a fresh session, after any sequence of `next_node`
calls every value stored in `suspected_misconceptions` lies in [0, 1] — each
update stores `clamp(previous + delta, 0, 1)`, and since every reachable
moment of a session's lifetime is the end state of some call sequence, the
bound holds at all times. -/
theorem C4_confidence_bounds
    (form : DiagnosticForm) (catalog : List CatalogEntry) (sid learner : String)
    (t : Nat) (calls : List (String × Nat)) (p : String × ℚ)
    (hp : p ∈ (runSession form catalog (startSession sid learner form t)
      calls).1.suspected_misconceptions) :
    0 ≤ p.2 ∧ p.2 ≤ 1 :=
  runSession_suspected_bounds form catalog calls _
    (fun q hq => absurd hq (List.not_mem_nil q)) p hp

unseal Rat.add Rat.mul Rat.inv Rat.sub in
/-- C4 (witness): the bound read off for the entry produced by one distractor
response on `sampleForm`. -/
theorem C4_witness :
    (("MISC-1", (6 : ℚ)/10) ∈ (runSession sampleForm []
        (startSession "W4" "L" sampleForm 0) [("B", 1)]).1.suspected_misconceptions) ∧
      (0 ≤ ((6 : ℚ)/10) ∧ (6 : ℚ)/10 ≤ 1) :=
  ⟨by decide,
    C4_confidence_bounds sampleForm [] "W4" "L" 0 [("B", 1)] ("MISC-1", (6 : ℚ)/10)
      (by decide)⟩

/-! ### Claim C5 -/

unseal Rat.add Rat.mul Rat.inv Rat.sub in
/-- C5 (counterexample): the claim says `next_node` on a completed session
fails with `SessionAlreadyCompleted` without recording the response. On the
code, the call on the completed `completedSession` succeeds and records the
response onto it (responses gains `P1 → X`, visited gains `P1`). -/
theorem C5_counterexample :
    completedSession.status = SessionStatus.completed ∧
      ((nextNodeStore sampleForm [] 10 [("S-DONE", completedSession)] "S-DONE"
          "X").toOption.map (fun p => (assocGet p.1.responses "P1", p.1.visited_nodes)))
        = some (some "X", ["N1", "P1"]) := by
  decide

/-- C5 (amended): `next_node` never checks the session's status: the only
failure of the session fetch is an unknown session id, and a session found
completed is processed exactly like any other — in particular the response is
recorded under its current node. -/
theorem C5_completed_session_not_rejected
    (form : DiagnosticForm) (catalog : List CatalogEntry) (now : Nat)
    (store : List (String × DiagnosticSession)) (sid response : String)
    (s : DiagnosticSession)
    (hfound : assocGet store sid = some s)
    (_hdone : s.status = SessionStatus.completed) :
    nextNodeStore form catalog now store sid response
        = Except.ok (advanceSession form catalog now s response) ∧
      assocGet (advanceSession form catalog now s response).1.responses
        s.current_node_id = some response := by
  constructor
  · unfold nextNodeStore getSessionStore
    rw [hfound]
    rfl
  · rw [advance_responses_eq]
    exact assocGet_assocSet_self _ _ _

unseal Rat.add Rat.mul Rat.inv Rat.sub in
/-- C5 (witness): the amended theorem applied to `completedSession`. -/
theorem C5_witness :
    nextNodeStore sampleForm [] 10 [("S-DONE", completedSession)] "S-DONE" "X"
        = Except.ok (advanceSession sampleForm [] 10 completedSession "X") ∧
      assocGet (advanceSession sampleForm [] 10 completedSession "X").1.responses
        completedSession.current_node_id = some "X" :=
  C5_completed_session_not_rejected sampleForm [] 10 [("S-DONE", completedSession)]
    "S-DONE" "X" completedSession (by decide) (by decide)

/-! ### Claim C6 -/

unseal Rat.add Rat.mul Rat.inv Rat.sub in
/-- C6: the termination policy fires whenever any suspected misconception has
confidence at least 0.9, whatever the next-node id is (in particular a
non-null one); concretely, on `earlyExitForm` the root distractor `B`
(delta 0.95, edge pointing at probe `P1`) completes the session after the
single response, `P1` never entering `visited_nodes`. -/
theorem C6_high_confidence_early_exit :
    (∀ (form : DiagnosticForm) (s : DiagnosticSession) (nextNodeId : Option String),
        (∃ p ∈ s.suspected_misconceptions, (9 : ℚ)/10 ≤ p.2) →
        checkTerminal form s nextNodeId = true) ∧
      ((advanceSession earlyExitForm [] 1 (startSession "S" "L" earlyExitForm 0) "B").2.terminal
          = true ∧
        (advanceSession earlyExitForm [] 1 (startSession "S" "L" earlyExitForm 0) "B").1.status
          = SessionStatus.completed ∧
        (findMatchingEdge earlyExitForm.decision_tree.edges "ROOT" "B").map Edge.to_node_id
          = some (some "P1") ∧
        (advanceSession earlyExitForm [] 1 (startSession "S" "L" earlyExitForm 0) "B").1.visited_nodes
          = ["ROOT"]) := by
  constructor
  · intro form s nextNodeId h
    obtain ⟨p, hp, hc⟩ := h
    simp only [checkTerminal, Bool.or_eq_true, List.any_eq_true]
    exact Or.inl (Or.inr ⟨p, hp, by simpa using hc⟩)
  · refine ⟨?_, ?_, ?_, ?_⟩ <;> decide

unseal Rat.add Rat.mul Rat.inv Rat.sub in
/-- C6 (witness): the policy-level statement applied to a session holding
confidence 0.95, with a non-null next node. -/
theorem C6_witness :
    checkTerminal earlyExitForm highConfSession (some "P1") = true :=
  C6_high_confidence_early_exit.1 earlyExitForm highConfSession (some "P1")
    ⟨("MISC-9", (19 : ℚ)/20), by decide, by decide⟩

/-! ### Claim C7 -/

/-- C7: the code's confidence score (`_calculate_confidence_score`) computes
exactly the spec formula: 1.0 with no suspected misconceptions, otherwise
`min(1.0, max(suspected.values()) + min(0.2, 0.1 * (len(visited_nodes) - 1)))`. -/
theorem C7_confidence_score_formula (s : DiagnosticSession) :
    calculateConfidenceScore s = confidenceScoreSpec s := by
  unfold calculateConfidenceScore confidenceScoreSpec
  by_cases h : s.suspected_misconceptions = []
  · simp [h]
  · simp only [if_neg h]
    congr 1
    congr 1
    push_cast
    ring_nf

/-! ### Claim C8 helper lemmas -/

theorem le_foldrMax {x : Nat} : ∀ {l : List Nat}, x ∈ l → x ≤ l.foldr max 0 := by
  intro l
  induction l with
  | nil => intro h; cases h
  | cons a rest ih =>
      intro h
      simp only [List.foldr_cons]
      rcases List.mem_cons.mp h with h | h
      · subst h; exact le_max_left _ _
      · exact le_trans (ih h) (le_max_right _ _)

theorem foldrMax_le {n : Nat} : ∀ {l : List Nat}, (∀ x ∈ l, x ≤ n) → l.foldr max 0 ≤ n := by
  intro l
  induction l with
  | nil => intro _; exact Nat.zero_le n
  | cons a rest ih =>
      intro h
      simp only [List.foldr_cons]
      exact max_le (h a (List.mem_cons_self a rest))
        (ih fun x hx => h x (List.mem_cons_of_mem a hx))

theorem foldrMax_attained : ∀ (l : List Nat), l.foldr max 0 = 0 ∨ l.foldr max 0 ∈ l := by
  intro l
  induction l with
  | nil => exact Or.inl rfl
  | cons a rest ih =>
      simp only [List.foldr_cons]
      rcases Nat.le_total a (rest.foldr max 0) with hle | hle
      · rw [max_eq_right hle]
        rcases ih with h0 | hm
        · exact Or.inl h0
        · exact Or.inr (List.mem_cons_of_mem a hm)
      · rw [max_eq_left hle]
        exact Or.inr (List.mem_cons_self a rest)

theorem severityRank_le_three (sv : Severity) : severityRank sv ≤ 3 := by
  cases sv <;> simp [severityRank]

theorem severityRank_eq_three {sv : Severity} (h : severityRank sv = 3) :
    sv = Severity.critical := by
  cases sv <;> simp_all [severityRank]

theorem severityRank_eq_two {sv : Severity} (h : severityRank sv = 2) :
    sv = Severity.high := by
  cases sv <;> simp_all [severityRank]

theorem severityRank_eq_one {sv : Severity} (h : severityRank sv = 1) :
    sv = Severity.medium := by
  cases sv <;> simp_all [severityRank]

/-! ### Claim C8 -/

unseal Rat.add Rat.mul Rat.inv Rat.sub in
/-- C8 (counterexample): the claim says that with a non-empty confirmed set
the result severity is the maximum catalog severity of the confirmed tags.
Running `sampleForm` against a catalog ranking `MISC-1` as `low`, responses
`[B, X]` confirm `MISC-1` (confidence clamped to 1.0), the only catalog
severity among confirmed tags is `low` — yet the code returns `medium`
(it falls through to the `max confidence >= 0.7` branch). -/
theorem C8_counterexample :
    ((runSession sampleForm lowCatalog (startSession "S8" "L" sampleForm 0)
        [("B", 1), ("X", 2)]).2.map (fun r => r.severity)) = some Severity.medium ∧
      (runSession sampleForm lowCatalog (startSession "S8" "L" sampleForm 0)
        [("B", 1), ("X", 2)]).1.confirmed_misconceptions = ["MISC-1"] ∧
      (lowCatalog.filter (fun m => decide (m.id ∈ (["MISC-1"] : List String)))).map
        (fun m => m.severity) = [Severity.low] := by
  refine ⟨?_, ?_, ?_⟩ <;> decide

/-- C8 (amended): severity is computed as: `low` when nothing is suspected;
otherwise the maximum severity among the catalog entries of confirmed tags
whenever that maximum is `medium` or higher; otherwise (all confirmed tags
ranked `low` or absent from the catalog, or nothing confirmed) `medium` when
the maximal suspected confidence reaches 0.7, else `low`. -/
theorem C8_severity_rule (catalog : List CatalogEntry)
    (suspected : List (String × ℚ)) (confirmed : List String) :
    determineSeverity catalog suspected confirmed
      = severitySpecAmended catalog suspected confirmed := by
  unfold determineSeverity severitySpecAmended
  by_cases hsus : suspected = []
  · simp [hsus]
  · simp only [if_neg hsus]
    set svs := (catalog.filter (fun m => decide (m.id ∈ confirmed))).map
      (fun m => m.severity) with hsvs
    set R := maxCatalogSeverityRank catalog confirmed with hR
    have hRdef : R = (svs.map severityRank).foldr max 0 := by
      rw [hR, hsvs]
      unfold maxCatalogSeverityRank
      rw [List.map_map]
      rfl
    have hmem_le : ∀ sv ∈ svs, severityRank sv ≤ R := by
      intro sv hsv
      rw [hRdef]
      exact le_foldrMax (List.mem_map_of_mem _ hsv)
    have hR_le : R ≤ 3 := by
      rw [hRdef]
      refine foldrMax_le ?_
      intro x hx
      rcases List.mem_map.mp hx with ⟨sv, _, rfl⟩
      exact severityRank_le_three sv
    have hatt : R = 0 ∨ ∃ sv ∈ svs, severityRank sv = R := by
      rw [hRdef]
      rcases foldrMax_attained (svs.map severityRank) with h0 | hm
      · exact Or.inl h0
      · rcases List.mem_map.mp hm with ⟨sv, hsv, he⟩
        exact Or.inr ⟨sv, hsv, he⟩
    have hconf_ne : ∀ sv ∈ svs, confirmed ≠ [] := by
      intro sv hsv
      rcases List.mem_map.mp hsv with ⟨m, hm, _⟩
      have hmem := of_decide_eq_true (List.mem_filter.mp hm).2
      exact List.ne_nil_of_mem hmem
    have hany : ∀ (c : Severity), (svs.any (fun sv => sv == c) = true) ↔ c ∈ svs := by
      intro c
      constructor
      · intro h
        rcases List.any_eq_true.mp h with ⟨sv, hsv, hbeq⟩
        have heq : sv = c := by simpa using hbeq
        exact heq ▸ hsv
      · intro h
        exact List.any_eq_true.mpr ⟨c, h, by simp⟩
    by_cases hcrit : Severity.critical ∈ svs
    · have h3 : R = 3 := le_antisymm hR_le (hmem_le _ hcrit)
      rw [if_pos ⟨hconf_ne _ hcrit, (hany _).mpr hcrit⟩,
        if_pos (show 1 ≤ R by omega), h3]
      rfl
    · have hn1 : ¬ (confirmed ≠ [] ∧ svs.any (fun sv => sv == Severity.critical) = true) :=
        fun hcon => hcrit ((hany _).mp hcon.2)
      by_cases hhigh : Severity.high ∈ svs
      · have h2 : R = 2 := by
          have hge : 2 ≤ R := hmem_le _ hhigh
          have hne3 : R ≠ 3 := by
            intro h3
            rcases hatt with h0 | ⟨sv, hsv, hrk⟩
            · omega
            · rw [h3] at hrk
              have hcr := severityRank_eq_three hrk
              rw [hcr] at hsv
              exact hcrit hsv
          omega
        rw [if_neg hn1, if_pos ⟨hconf_ne _ hhigh, (hany _).mpr hhigh⟩,
          if_pos (show 1 ≤ R by omega), h2]
        rfl
      · have hn2 : ¬ (confirmed ≠ [] ∧ svs.any (fun sv => sv == Severity.high) = true) :=
          fun hcon => hhigh ((hany _).mp hcon.2)
        by_cases hmed : Severity.medium ∈ svs
        · have h1 : R = 1 := by
            have hge : 1 ≤ R := hmem_le _ hmed
            have hne3 : R ≠ 3 := by
              intro h3
              rcases hatt with h0 | ⟨sv, hsv, hrk⟩
              · omega
              · rw [h3] at hrk
                have hcr := severityRank_eq_three hrk
                rw [hcr] at hsv
                exact hcrit hsv
            have hne2 : R ≠ 2 := by
              intro h2
              rcases hatt with h0 | ⟨sv, hsv, hrk⟩
              · omega
              · rw [h2] at hrk
                have hcr := severityRank_eq_two hrk
                rw [hcr] at hsv
                exact hhigh hsv
            omega
          rw [if_neg hn1, if_neg hn2, if_pos ⟨hconf_ne _ hmed, (hany _).mpr hmed⟩,
            if_pos (show 1 ≤ R by omega), h1]
          rfl
        · have hn3 : ¬ (confirmed ≠ [] ∧ svs.any (fun sv => sv == Severity.medium) = true) :=
            fun hcon => hmed ((hany _).mp hcon.2)
          have h0 : R = 0 := by
            rcases hatt with h0 | ⟨sv, hsv, hrk⟩
            · exact h0
            · cases sv with
              | low => exact hrk.symm
              | medium => exact absurd hsv hmed
              | high => exact absurd hsv hhigh
              | critical => exact absurd hsv hcrit
          rw [if_neg hn1, if_neg hn2, if_neg hn3, if_neg (show ¬ 1 ≤ R by omega)]

/-! ### Claim C9 -/

unseal Rat.add Rat.mul Rat.inv Rat.sub in
/-- C9 (counterexample): the claim says two independent runs over the same
graph and response sequence produce identical `Result` values in all fields.
Each run draws a fresh uuid4 session id and wall-clock times (modelled as the
session-id and clock inputs); two runs of the same responses `[B, X]` with
different draws yield different `Result` values — `session_id` (and the
clock-derived fields) differ. -/
theorem C9_counterexample :
    (runSession sampleForm lowCatalog (startSession "SESSION-A1" "L" sampleForm 0)
        [("B", 3), ("X", 5)]).2 ≠
      (runSession sampleForm lowCatalog (startSession "SESSION-B2" "L" sampleForm 0)
        [("B", 4), ("X", 9)]).2 := by
  decide

/-- C9 (amended): for a fixed graph and fixed response sequence, two runs are
identical in every uuid- and clock-independent field: whatever session ids,
start times and per-call clock readings the two runs drew, the final session
states agree on the whole navigation core (current node, visited path,
responses, confidence state, status), and the Results agree on every field
except `session_id`, `completed_at` and `total_time_seconds`. -/
theorem C9_determinism_core
    (form : DiagnosticForm) (catalog : List CatalogEntry) (learner : String)
    (sid₁ sid₂ : String) (t₁ t₂ : Nat) (calls₁ calls₂ : List (String × Nat))
    (h : calls₁.map Prod.fst = calls₂.map Prod.fst) :
    (runSession form catalog (startSession sid₁ learner form t₁) calls₁).1.core =
        (runSession form catalog (startSession sid₂ learner form t₂) calls₂).1.core ∧
      ((runSession form catalog (startSession sid₁ learner form t₁) calls₁).2).map
          DiagnosticResult.core =
        ((runSession form catalog (startSession sid₂ learner form t₂) calls₂).2).map
          DiagnosticResult.core :=
  runSession_core_congr form catalog calls₁ calls₂ _ _ h rfl

unseal Rat.add Rat.mul Rat.inv Rat.sub in
/-- C9 (witness): the amended theorem applied to two runs with different
session ids and clocks. -/
theorem C9_witness :
    ((runSession sampleForm lowCatalog (startSession "SESSION-A1" "L" sampleForm 0)
        [("B", 3), ("X", 5)]).2).map DiagnosticResult.core =
      ((runSession sampleForm lowCatalog (startSession "SESSION-B2" "L" sampleForm 7)
        [("B", 4), ("X", 9)]).2).map DiagnosticResult.core :=
  (C9_determinism_core sampleForm lowCatalog "L" "SESSION-A1" "SESSION-B2" 0 7
    [("B", 3), ("X", 5)] [("B", 4), ("X", 9)] (by decide)).2

/-! ### Claim C10 -/

/-- C10: at every point of a session's lifetime — i.e. after any sequence of
`next_node` calls from a fresh session — every tag in
`confirmed_misconceptions` is also a key of `suspected_misconceptions`: a tag
is confirmed only immediately after its suspected entry is written, both
collections start empty, and no operation removes a suspected key. -/
theorem C10_confirmed_subset_suspected
    (form : DiagnosticForm) (catalog : List CatalogEntry) (sid learner : String)
    (t : Nat) (calls : List (String × Nat)) (tag : String)
    (h : tag ∈ (runSession form catalog (startSession sid learner form t)
      calls).1.confirmed_misconceptions) :
    ∃ c, assocGet (runSession form catalog (startSession sid learner form t)
        calls).1.suspected_misconceptions tag = some c := by
  have hs := runSession_key_present form catalog calls (startSession sid learner form t)
    (fun q hq => absurd hq (List.not_mem_nil q)) tag h
  exact Option.isSome_iff_exists.mp hs

unseal Rat.add Rat.mul Rat.inv Rat.sub in
/-- C10 (witness): the invariant read off after the confirming run `[B, X]`
on `sampleForm`. -/
theorem C10_witness :
    ∃ c, assocGet (runSession sampleForm [] (startSession "WX" "L" sampleForm 0)
        [("B", 1), ("X", 2)]).1.suspected_misconceptions "MISC-1" = some c :=
  C10_confirmed_subset_suspected sampleForm [] "WX" "L" 0 [("B", 1), ("X", 2)] "MISC-1"
    (by decide)
